import Mathlib

set_option linter.unusedVariables false

/-!
Verification development for `exif-date-organizer.py` (single-script photo/video
folder renamer).  The script scans the top-level subfolders of a target path,
collects per-file calendar dates (from embedded metadata adapters), aggregates
them by majority vote with a confidence score, and renames each folder to
`"<YYYY-MM-DD> <cleaned name>"` when the confidence passes a threshold.

Shallow embedding conventions:
* The metadata adapters (`get_date_from_image` / `get_date_from_video`) perform
  I/O; each scanned file is modelled as a `MediaFile` carrying its filename and
  the adapter's result (`dateObj : Option String`, already formatted by
  `strftime("%Y-%m-%d")`, or `none` when no date was found / the file was
  unreadable).
* `Counter` is modelled as an insertion-ordered association list
  `List (String × Nat)`; `Counter.most_common(1)[0]` keeps the first-inserted
  key among ties (Python's `heapq.nlargest` / stable sort), modelled by
  `mostCommon1`.
* Python float division/comparison is modelled over `ℚ`.
* `os.path.exists` is modelled as a boolean oracle on path strings; the
  unbounded `while` loop of `get_unique_path` terminates on a real (finite)
  filesystem, which the embedding expresses as an explicit existence
  hypothesis.
* `os.rename` may raise `OSError`; each folder carries
  `renameResult : Option String` (`none` = success, `some msg` = the caught
  error message).
-/

namespace ExifOrganizer

/-- Constant `IMAGE_EXT` from the script's CONFIG section. -/
def IMAGE_EXT : List String := [".jpg", ".jpeg", ".png", ".tiff", ".heic"]

/-- Constant `VIDEO_EXT` from the script's CONFIG section. -/
def VIDEO_EXT : List String := [".mp4", ".mov", ".avi", ".mkv", ".3gp", ".m4v"]

/-- Constant `IGNORED_DIRS` from the script's CONFIG section (a Python set; only
membership is ever used, so a list is an adequate model). -/
def IGNORED_DIRS : List String := ["@eaDir", "#recycle", ".DS_Store", "Thumbs.db", "venv"]

/-- Constant `IGNORED_FILES` from the script's CONFIG section. -/
def IGNORED_FILES : List String := ["SYNOFILE_THUMB", "desktop.ini", ".DS_Store"]

/-- Does `needle` match at the head of `hay`?  Building block for Python's
substring test `j in f`. -/
def leadMatch : List Char → List Char → Bool
  | [], _ => true
  | _ :: _, [] => false
  | a :: as, b :: bs => a == b && leadMatch as bs

/-- Does `needle` occur anywhere in `hay`? -/
def subMatch (needle : List Char) : List Char → Bool
  | [] => leadMatch needle []
  | c :: rest => leadMatch needle (c :: rest) || subMatch needle rest

/-- Python's substring containment `needle in hay` on strings. -/
def strContains (hay needle : String) : Bool :=
  subMatch needle.data hay.data

/-- Python's `hay.endswith(needle)` on character lists. -/
def listEndsWith (hay needle : List Char) : Bool :=
  leadMatch needle.reverse hay.reverse

/-- Python's `str.lower()` on a string (ASCII), used before the extension
check `f.lower().endswith(...)`. -/
def pyLowerStr (s : String) : List Char :=
  s.data.map Char.toLower

/-- A file seen during the `os.walk` of `collect_dates_recursive`: its
basename and the date the metadata adapter returns for it (already formatted
as `"%Y-%m-%d"`), `none` when no embedded date was found. -/
structure MediaFile where
  name : String
  dateObj : Option String
  deriving Repr, DecidableEq

/-- The per-file filter of `collect_dates_recursive` (lines 184-187): the file
is kept iff no `IGNORED_FILES` token occurs in its name (substring test) and
its lowercased name ends with one of the media extensions. -/
def isRelevantFile (f : MediaFile) : Bool :=
  !(IGNORED_FILES.any (fun j => strContains f.name j)) &&
    (IMAGE_EXT ++ VIDEO_EXT).any (fun e => listEndsWith (pyLowerStr f.name) e.data)

/-- Python's `date_counter[d] += 1` on an insertion-ordered association list: bump the
existing entry in place, or append a fresh entry with count 1. -/
def tallyIncr : List (String × Nat) → String → List (String × Nat)
  | [], d => [(d, 1)]
  | (k, v) :: rest, d =>
      if k = d then (k, v + 1) :: rest else (k, v) :: tallyIncr rest d

/-- One iteration of the tally-building loop of `collect_dates_recursive`
(lines 193-200): increment the counter at the adapter's date when present, do
nothing when the adapter returned no date (`if date_obj:`). -/
def tallyStep (acc : List (String × Nat)) (f : MediaFile) : List (String × Nat) :=
  match f.dateObj with
  | some d => tallyIncr acc d
  | none => acc

/-- The tally-building loop of `collect_dates_recursive` (lines 191-200):
fold `tallyStep` over the files, starting from the empty counter. -/
def buildTally (files : List MediaFile) : List (String × Nat) :=
  files.foldl tallyStep []

/-- Function `collect_dates_recursive(root_folder, non_interactive)` (lines 177-202).
Returns `none` for Python's `(None, 0)` when no file passes the filter,
otherwise `some (date_counter, total_files)`.  `total_files` counts every
file that passed the filter, whether or not a date was obtained for it.
The `non_interactive` argument is accepted and, exactly as in the source,
never read. -/
def collect_dates_recursive (non_interactive : Bool) (files : List MediaFile) :
    Option (List (String × Nat) × Nat) :=
  let all_files := files.filter isRelevantFile
  if all_files.isEmpty then none
  else some (buildTally all_files, all_files.length)

/-- Fold step for `Counter.most_common(1)[0]`: keep the current best entry,
replacing it only on a strictly greater count (so the first-inserted key wins
among ties, as Python's stable `nlargest` does). -/
def mostCommonAux (best : String × Nat) : List (String × Nat) → String × Nat
  | [] => best
  | p :: rest => mostCommonAux (if best.2 < p.2 then p else best) rest

/-- Python's `date_stats.most_common(1)[0]` (line 251).  Only ever evaluated on a
non-empty counter in the script; the `[]` case is an arbitrary default. -/
def mostCommon1 : List (String × Nat) → String × Nat
  | [] => ("", 0)
  | p :: rest => mostCommonAux p rest

/-- Sum of all counts of a tally. -/
def tallySum (t : List (String × Nat)) : Nat :=
  (t.map Prod.snd).sum

/-- Maximum count occurring in a tally (0 for the empty tally). -/
def maxCount (t : List (String × Nat)) : Nat :=
  (t.map Prod.snd).foldr max 0

/-- The assignment `confidence = count / total_files if total_files > 0 else 0` (line 252),
with Python float arithmetic modelled over `ℚ`. -/
def codeConfidence (count total : Nat) : ℚ :=
  if 0 < total then (count : ℚ) / (total : ℚ) else 0

/-- ASCII model of the whitespace class used by both the regex `\s` and
Python's `str.strip()`. -/
def isPySpace (c : Char) : Bool :=
  c = ' ' || c = '\t' || c = '\n' || c = '\r' || c = '\x0b' || c = '\x0c'

/-- Membership in the regex character class `[\d\.\-\/\s]` of
`clean_folder_name_regex`. -/
def isLeadStrip (c : Char) : Bool :=
  c.isDigit || c = '.' || c = '-' || c = '/' || isPySpace c

/-- Python `str.strip()` on a character list (ASCII whitespace). -/
def pyStrip (l : List Char) : List Char :=
  ((l.dropWhile isPySpace).reverse.dropWhile isPySpace).reverse

/-- Worker for Python `str.title()`: a cased (alphabetic, in ASCII) character
is uppercased after a non-cased character and lowercased after a cased one. -/
def pyTitleGo : Bool → List Char → List Char
  | _, [] => []
  | prevCased, c :: rest =>
      if c.isAlpha then
        (if prevCased then c.toLower else c.toUpper) :: pyTitleGo true rest
      else
        c :: pyTitleGo false rest

/-- Python `str.title()` on a character list (ASCII). -/
def pyTitle (l : List Char) : List Char :=
  pyTitleGo false l

/-- Python `str.capitalize()` on a character list (ASCII): first character
uppercased, all remaining characters lowercased. -/
def pyCapitalize : List Char → List Char
  | [] => []
  | c :: rest => c.toUpper :: rest.map Char.toLower

/-- Function `clean_folder_name_regex(foldername, case_type)` (lines 61-69): strip the
leading run of digits/dots/dashes/slashes/whitespace, then `strip()`; if
nothing remains return the original name, otherwise apply the requested case
transform (any unrecognized `case_type` falls through to `title`, as in the
source's final `return cleaned.title()`). -/
def clean_folder_name_regex (foldername : String) (case_type : String) : String :=
  let cleaned := pyStrip (foldername.data.dropWhile isLeadStrip)
  if cleaned.isEmpty then foldername
  else if case_type = "upper" then String.mk (cleaned.map Char.toUpper)
  else if case_type = "lower" then String.mk (cleaned.map Char.toLower)
  else if case_type = "title" then String.mk (pyTitle cleaned)
  else if case_type = "sentence" then String.mk (pyCapitalize cleaned)
  else String.mk (pyTitle cleaned)

/-- The candidate path `f"{base_path} ({counter})"` of `get_unique_path`. -/
def numberedPath (base : String) (n : Nat) : String :=
  base ++ " (" ++ toString n ++ ")"

/-- Function `get_unique_path(base_path)` (lines 204-210).  `exists_fn` models
`os.path.exists`.  The source's `while True` loop terminates exactly when some
numbered candidate is free — always true on a finite filesystem — which the
embedding takes as the hypothesis `h`; the loop's result is the first free
candidate, i.e. the one at the least free index. -/
def get_unique_path (exists_fn : String → Bool) (base_path : String)
    (h : ∃ n, exists_fn (numberedPath base_path (n + 1)) = false) : String :=
  if exists_fn base_path = false then base_path
  else numberedPath base_path (Nat.find h + 1)

/-- Statement-level predicate taken from the spec's words: a folder name
starting with a `YYYY-MM-DD`-shaped prefix (four digits, dash, two digits,
dash, two digits).  Used only to state claims about how such folders are
treated; the source itself never tests for this shape. -/
def hasDatePrefixShape (s : String) : Bool :=
  match s.data with
  | y1 :: y2 :: y3 :: y4 :: s1 :: m1 :: m2 :: s2 :: d1 :: d2 :: _ =>
      y1.isDigit && y2.isDigit && y3.isDigit && y4.isDigit && s1 = '-' &&
        m1.isDigit && m2.isDigit && s2 = '-' && d1.isDigit && d2.isDigit
  | _ => false

/-- A tiny concrete filesystem (as an `os.path.exists` oracle) in which `"P"`
and `"P (1)"` exist and nothing else does; used to exercise
`get_unique_path` on concrete input. -/
def demoFS : String → Bool :=
  fun s => s == "P" || s == "P (1)"

/-- The command-line options of the script that reach the per-folder logic
(`--live`, `--confidence`, `--non-interactive`, `--case`, and whether
`--ai-api-key` was supplied). -/
structure Config where
  live : Bool
  confidence : ℚ
  non_interactive : Bool
  case_type : String
  use_ai : Bool

/-- One top-level subfolder as the main loop of `process_folders` sees it:
its basename, the media files found under it, and what `os.rename` would do
to it (`none` = succeed, `some msg` = raise `OSError(msg)`). -/
structure FolderInput where
  name : String
  files : List MediaFile
  renameResult : Option String

/-- The per-folder outcome recorded by `process_folders`: CASE 1 skip
("Tiada metadata/tarikh dijumpai") is `skipNoData`, CASE 2 skip is
`skipLowConfidence`, CASE 3 (`new_name == folder_name`, nothing recorded) is
`noAction`, an entry of `renamed_list` (live success or dry run) is
`renamed new_name`, and an entry of `error_list` is `error msg`. -/
inductive Outcome where
  | skipNoData
  | skipLowConfidence (conf : ℚ)
  | noAction
  | renamed (newName : String)
  | error (msg : String)
  deriving Repr, DecidableEq

/-- The decision part of the folder loop of `process_folders` (lines 251-295),
reached once `date_stats` is known non-empty: pick the most common date,
compute the confidence, compare against the threshold, build the proposed
name, and rename (recording a caught `OSError` as an error entry).  `ai`
models `ai_fix_spelling` (network I/O) as an oracle; it is consulted exactly
when `use_ai` holds.  Collision resolution (`get_unique_path`) only chooses
the on-disk destination and is modelled separately; `renameResult` carries
whether `os.rename` throws. -/
def decideFromTally (cfg : Config) (ai : String → String) (fi : FolderInput)
    (tally : List (String × Nat)) (total : Nat) : Outcome :=
  let mc := mostCommon1 tally
  let conf := codeConfidence mc.2 total
  if conf < cfg.confidence then Outcome.skipLowConfidence conf
  else
    let clean_base := clean_folder_name_regex fi.name cfg.case_type
    let final_name := if cfg.use_ai then ai clean_base else clean_base
    let new_name := mc.1 ++ " " ++ final_name
    if new_name = fi.name then Outcome.noAction
    else if cfg.live then
      match fi.renameResult with
      | none => Outcome.renamed new_name
      | some e => Outcome.error e
    else Outcome.renamed new_name

/-- The body of the main folder loop of `process_folders` (lines 240-295) for
one folder, after the `IGNORED_DIRS` guard: collect the dates, skip when no
data was found (`not date_stats` — covers both Python's `None` and an empty
counter), otherwise decide from the tally. -/
def processOneFolder (cfg : Config) (ai : String → String) (fi : FolderInput) : Outcome :=
  match collect_dates_recursive cfg.non_interactive fi.files with
  | none => Outcome.skipNoData
  | some (tally, total) =>
    if tally = [] then Outcome.skipNoData
    else decideFromTally cfg ai fi tally total

/-- The main folder loop of `process_folders` (lines 235-295): every folder
whose name is in `IGNORED_DIRS` is skipped without a report entry; every other
folder is processed in order and its outcome recorded. -/
def processFolders (cfg : Config) (ai : String → String) :
    List FolderInput → List (String × Outcome)
  | [] => []
  | fi :: rest =>
      if IGNORED_DIRS.contains fi.name then processFolders cfg ai rest
      else (fi.name, processOneFolder cfg ai fi) :: processFolders cfg ai rest

/-! ## Helper lemmas about the tally and the aggregation -/

@[simp] theorem tallySum_nil : tallySum [] = 0 := rfl

@[simp] theorem tallySum_cons (p : String × Nat) (t : List (String × Nat)) :
    tallySum (p :: t) = p.2 + tallySum t := by
  simp [tallySum]

theorem tallySum_tallyIncr (t : List (String × Nat)) (d : String) :
    tallySum (tallyIncr t d) = tallySum t + 1 := by
  induction t with
  | nil => simp [tallyIncr]
  | cons p rest ih =>
      obtain ⟨k, v⟩ := p
      by_cases hk : k = d
      · simp [tallyIncr, hk]
        omega
      · simp [tallyIncr, hk, ih]
        omega

theorem tallyIncr_count_pos (t : List (String × Nat)) (d : String)
    (h : ∀ p ∈ t, 1 ≤ p.2) : ∀ p ∈ tallyIncr t d, 1 ≤ p.2 := by
  induction t with
  | nil =>
      intro p hp
      simp [tallyIncr] at hp
      simp [hp]
  | cons q rest ih =>
      obtain ⟨k, v⟩ := q
      intro p hp
      by_cases hk : k = d
      · simp [tallyIncr, hk] at hp
        rcases hp with hp | hp
        · simp [hp]
        · exact h p (List.mem_cons_of_mem _ hp)
      · simp only [tallyIncr, if_neg hk, List.mem_cons] at hp
        rcases hp with hp | hp
        · exact h p (by simp [hp])
        · exact ih (fun q hq => h q (List.mem_cons_of_mem _ hq)) p hp

theorem tallyStep_count_pos (acc : List (String × Nat)) (f : MediaFile)
    (h : ∀ p ∈ acc, 1 ≤ p.2) : ∀ p ∈ tallyStep acc f, 1 ≤ p.2 := by
  unfold tallyStep
  cases f.dateObj with
  | none => exact h
  | some d => exact tallyIncr_count_pos acc d h

theorem foldl_tallyStep_count_pos (files : List MediaFile) :
    ∀ acc, (∀ p ∈ acc, 1 ≤ p.2) → ∀ p ∈ files.foldl tallyStep acc, 1 ≤ p.2 := by
  induction files with
  | nil => intro acc h; simpa using h
  | cons f rest ih =>
      intro acc h
      simp only [List.foldl_cons]
      exact ih (tallyStep acc f) (tallyStep_count_pos acc f h)

theorem buildTally_count_pos (files : List MediaFile) :
    ∀ p ∈ buildTally files, 1 ≤ p.2 :=
  foldl_tallyStep_count_pos files [] (by simp)

theorem tallySum_tallyStep_le (acc : List (String × Nat)) (f : MediaFile) :
    tallySum (tallyStep acc f) ≤ tallySum acc + 1 := by
  cases h : f.dateObj <;> simp [tallyStep, h, tallySum_tallyIncr]

theorem tallySum_foldl_tallyStep_le (files : List MediaFile) :
    ∀ acc, tallySum (files.foldl tallyStep acc) ≤ tallySum acc + files.length := by
  induction files with
  | nil => intro acc; simp
  | cons f rest ih =>
      intro acc
      simp only [List.foldl_cons, List.length_cons]
      have h1 := ih (tallyStep acc f)
      have h2 := tallySum_tallyStep_le acc f
      omega

theorem tallySum_buildTally_le (files : List MediaFile) :
    tallySum (buildTally files) ≤ files.length := by
  have := tallySum_foldl_tallyStep_le files []
  simpa [buildTally] using this

theorem count_le_tallySum (t : List (String × Nat)) (p : String × Nat)
    (hp : p ∈ t) : p.2 ≤ tallySum t := by
  induction t with
  | nil => simp at hp
  | cons q rest ih =>
      rcases List.mem_cons.mp hp with h | h
      · subst h; simp
      · have := ih h
        simp
        omega

@[simp] theorem maxCount_nil : maxCount [] = 0 := rfl

@[simp] theorem maxCount_cons (p : String × Nat) (t : List (String × Nat)) :
    maxCount (p :: t) = max p.2 (maxCount t) := rfl

theorem mostCommonAux_mem (l : List (String × Nat)) :
    ∀ best, mostCommonAux best l ∈ best :: l := by
  induction l with
  | nil => intro best; simp [mostCommonAux]
  | cons p rest ih =>
      intro best
      simp only [mostCommonAux]
      by_cases hb : best.2 < p.2
      · rw [if_pos hb]
        exact List.mem_cons_of_mem best (ih p)
      · rw [if_neg hb]
        rcases List.mem_cons.mp (ih best) with h | h
        · simp [h]
        · exact List.mem_cons_of_mem _ (List.mem_cons_of_mem _ h)

theorem mostCommonAux_snd (l : List (String × Nat)) :
    ∀ best, (mostCommonAux best l).2 = max best.2 (maxCount l) := by
  induction l with
  | nil => intro best; simp [mostCommonAux]
  | cons p rest ih =>
      intro best
      simp only [mostCommonAux, maxCount_cons]
      rw [ih]
      by_cases hb : best.2 < p.2
      · simp [hb]; omega
      · simp [hb]; omega

theorem mostCommon1_mem (t : List (String × Nat)) (h : t ≠ []) :
    mostCommon1 t ∈ t := by
  cases t with
  | nil => exact absurd rfl h
  | cons p rest => exact mostCommonAux_mem rest p

theorem mostCommon1_snd (t : List (String × Nat)) (h : t ≠ []) :
    (mostCommon1 t).2 = maxCount t := by
  cases t with
  | nil => exact absurd rfl h
  | cons p rest => simp [mostCommon1, mostCommonAux_snd]

/-! ## Helper lemmas about `collect_dates_recursive` and the folder loop -/

theorem collect_some_inv (ni : Bool) (files : List MediaFile)
    (tally : List (String × Nat)) (total : Nat)
    (h : collect_dates_recursive ni files = some (tally, total)) :
    tally = buildTally (files.filter isRelevantFile)
      ∧ total = (files.filter isRelevantFile).length
      ∧ files.filter isRelevantFile ≠ [] := by
  unfold collect_dates_recursive at h
  by_cases he : (files.filter isRelevantFile).isEmpty
  · simp [he] at h
  · simp only [he, Bool.false_eq_true, if_false, Option.some.injEq, Prod.mk.injEq] at h
    refine ⟨h.1.symm, h.2.symm, ?_⟩
    simpa [List.isEmpty_iff] using he

theorem collect_some_total_pos (ni : Bool) (files : List MediaFile)
    (tally : List (String × Nat)) (total : Nat)
    (h : collect_dates_recursive ni files = some (tally, total)) : 0 < total := by
  obtain ⟨-, htot, hne⟩ := collect_some_inv ni files tally total h
  have : 0 < (files.filter isRelevantFile).length := List.length_pos.mpr hne
  omega

theorem collect_count_bounds (ni : Bool) (files : List MediaFile)
    (tally : List (String × Nat)) (total : Nat)
    (h : collect_dates_recursive ni files = some (tally, total)) (ht : tally ≠ []) :
    1 ≤ (mostCommon1 tally).2 ∧ (mostCommon1 tally).2 ≤ total := by
  obtain ⟨htal, htot, -⟩ := collect_some_inv ni files tally total h
  have hmem : mostCommon1 tally ∈ tally := mostCommon1_mem tally ht
  constructor
  · exact htal ▸ buildTally_count_pos _ _ (htal ▸ hmem)
  · have h1 : (mostCommon1 tally).2 ≤ tallySum tally := count_le_tallySum tally _ hmem
    have h2 : tallySum tally ≤ total := by
      rw [htal, htot]
      exact tallySum_buildTally_le _
    omega

theorem codeConfidence_nonneg (count total : Nat) : 0 ≤ codeConfidence count total := by
  unfold codeConfidence
  split
  · positivity
  · exact le_refl 0

theorem processOneFolder_eq (cfg : Config) (ai : String → String) (fi : FolderInput)
    (tally : List (String × Nat)) (total : Nat)
    (hc : collect_dates_recursive cfg.non_interactive fi.files = some (tally, total))
    (ht : tally ≠ []) :
    processOneFolder cfg ai fi = decideFromTally cfg ai fi tally total := by
  unfold processOneFolder
  rw [hc]
  simp [ht]

theorem decideFromTally_pass (cfg : Config) (ai : String → String) (fi : FolderInput)
    (tally : List (String × Nat)) (total : Nat)
    (hconf : ¬ codeConfidence (mostCommon1 tally).2 total < cfg.confidence) :
    decideFromTally cfg ai fi tally total =
      (if (mostCommon1 tally).1 ++ " " ++
            (if cfg.use_ai then ai (clean_folder_name_regex fi.name cfg.case_type)
             else clean_folder_name_regex fi.name cfg.case_type) = fi.name then
         Outcome.noAction
       else if cfg.live then
         match fi.renameResult with
         | none => Outcome.renamed ((mostCommon1 tally).1 ++ " " ++
             (if cfg.use_ai then ai (clean_folder_name_regex fi.name cfg.case_type)
              else clean_folder_name_regex fi.name cfg.case_type))
         | some e => Outcome.error e
       else Outcome.renamed ((mostCommon1 tally).1 ++ " " ++
           (if cfg.use_ai then ai (clean_folder_name_regex fi.name cfg.case_type)
            else clean_folder_name_regex fi.name cfg.case_type))) := by
  simp only [decideFromTally]
  rw [if_neg hconf]

theorem decideFromTally_error_inv (cfg : Config) (ai : String → String) (fi : FolderInput)
    (tally : List (String × Nat)) (total : Nat) (e : String)
    (he : decideFromTally cfg ai fi tally total = Outcome.error e) :
    cfg.live = true ∧ fi.renameResult = some e := by
  by_cases hconf : codeConfidence (mostCommon1 tally).2 total < cfg.confidence
  · simp [decideFromTally, hconf] at he
  · rw [decideFromTally_pass cfg ai fi tally total hconf] at he
    by_cases hname : (mostCommon1 tally).1 ++ " " ++
        (if cfg.use_ai then ai (clean_folder_name_regex fi.name cfg.case_type)
         else clean_folder_name_regex fi.name cfg.case_type) = fi.name
    · rw [if_pos hname] at he
      exact absurd he (by simp)
    · rw [if_neg hname] at he
      cases hlive : cfg.live with
      | false =>
          rw [if_neg (by simp [hlive])] at he
          exact absurd he (by simp)
      | true =>
          rw [if_pos hlive] at he
          cases hrn : fi.renameResult with
          | none => rw [hrn] at he; exact absurd he (by simp)
          | some e2 =>
              rw [hrn] at he
              simp only [Outcome.error.injEq] at he
              exact ⟨rfl, by rw [he]⟩


theorem processOneFolder_error_inv (cfg : Config) (ai : String → String)
    (fi : FolderInput) (e : String)
    (he : processOneFolder cfg ai fi = Outcome.error e) :
    cfg.live = true ∧ fi.renameResult = some e := by
  rcases hcol : collect_dates_recursive cfg.non_interactive fi.files with - | ⟨tally, total⟩
  · simp [processOneFolder, hcol] at he
  · by_cases ht : tally = []
    · simp [processOneFolder, hcol, ht] at he
    · rw [processOneFolder_eq cfg ai fi tally total hcol ht] at he
      exact decideFromTally_error_inv cfg ai fi tally total e he

/-! ## The claims -/

/-- C1, counterexample: a folder with one media file dated `2023-01-01` and
one media file with no embedded date.  The claim states the confidence equals
`max(tally.values()) / sum(tally.values())`, which here is `1 / 1 = 1`, but
the code divides by `total_files` (all scanned media files, dated or not) and
computes `1 / 2`. -/
theorem C1_counterexample :
    collect_dates_recursive true [⟨"a.jpg", some "2023-01-01"⟩, ⟨"b.jpg", none⟩]
        = some ([("2023-01-01", 1)], 2)
      ∧ codeConfidence (mostCommon1 [("2023-01-01", 1)]).2 2 = 1 / 2
      ∧ (maxCount [("2023-01-01", 1)] : ℚ) / (tallySum [("2023-01-01", 1)] : ℚ) = 1
      ∧ (1 : ℚ) / 2 ≠ 1 := by
  refine ⟨rfl, ?_, ?_, by norm_num⟩
  · show codeConfidence 1 2 = 1 / 2
    norm_num [codeConfidence]
  · show ((1 : Nat) : ℚ) / ((1 : Nat) : ℚ) = 1
    norm_num

/-- C1 (amended): for every folder whose tally is non-empty, the confidence
computed by the code equals the count of the chosen (most frequent) date
divided by the total number of scanned media files (`total_files`, which also
counts files for which no date was obtained — not the sum of tally counts),
and this confidence lies in `(0, 1]`. -/
theorem C1_confidence_in_unit_interval (ni : Bool) (files : List MediaFile)
    (tally : List (String × Nat)) (total : Nat)
    (h : collect_dates_recursive ni files = some (tally, total)) (ht : tally ≠ []) :
    codeConfidence (mostCommon1 tally).2 total = (maxCount tally : ℚ) / (total : ℚ)
      ∧ 0 < codeConfidence (mostCommon1 tally).2 total
      ∧ codeConfidence (mostCommon1 tally).2 total ≤ 1 := by
  have htot := collect_some_total_pos ni files tally total h
  obtain ⟨hc1, hc2⟩ := collect_count_bounds ni files tally total h ht
  have hconf : codeConfidence (mostCommon1 tally).2 total
      = ((mostCommon1 tally).2 : ℚ) / (total : ℚ) := by
    unfold codeConfidence
    rw [if_pos htot]
  refine ⟨?_, ?_, ?_⟩
  · rw [hconf, mostCommon1_snd tally ht]
  · rw [hconf]
    apply div_pos
    · exact_mod_cast hc1
    · exact_mod_cast htot
  · rw [hconf, div_le_one (by exact_mod_cast htot)]
    exact_mod_cast hc2

/-- C1, witness: the amended statement applied to the concrete folder of the
counterexample (confidence `1/2 = maxcount/total ∈ (0,1]`). -/
theorem C1_witness :
    codeConfidence (mostCommon1 [("2023-01-01", 1)]).2 2
        = (maxCount [("2023-01-01", 1)] : ℚ) / ((2 : Nat) : ℚ)
      ∧ 0 < codeConfidence (mostCommon1 [("2023-01-01", 1)]).2 2
      ∧ codeConfidence (mostCommon1 [("2023-01-01", 1)]).2 2 ≤ 1 :=
  C1_confidence_in_unit_interval true
    [⟨"a.jpg", some "2023-01-01"⟩, ⟨"b.jpg", none⟩] [("2023-01-01", 1)] 2 rfl (by decide)

/-- C2, counterexample: in non-interactive mode a media file for which the
adapter returns no date is NOT given its filesystem modified-date: the claim
requires the tally to be incremented at some date for the file (so the tally
would be non-empty with total count 1), but the code returns the empty tally
— the file is silently dropped, contributing only to `total_files`. -/
theorem C2_counterexample :
    collect_dates_recursive true [⟨"b.jpg", none⟩] = some ([], 1) := rfl

/-- C2 (amended): in non-interactive mode (indeed in every mode), a media
file for which the metadata adapter returns no embedded date contributes
nothing to the tally and one to the file count `total_files`; there is no
filesystem modified-date fallback. -/
theorem C2_missing_date_dropped (ni : Bool) (f : MediaFile) (rest : List MediaFile)
    (hrel : isRelevantFile f = true) (hnd : f.dateObj = none) :
    collect_dates_recursive ni (f :: rest)
      = some (buildTally (rest.filter isRelevantFile),
          (rest.filter isRelevantFile).length + 1) := by
  have hstep : tallyStep [] f = [] := by simp [tallyStep, hnd]
  simp [collect_dates_recursive, List.filter_cons, hrel, buildTally, hstep]

/-- C2, witness: a date-less media file alongside one dated file: the tally
records only the dated file while the count records both. -/
theorem C2_witness :
    collect_dates_recursive true
        (⟨"b.jpg", none⟩ :: [⟨"a.jpg", some "2023-01-01"⟩])
      = some (buildTally ([⟨"a.jpg", some "2023-01-01"⟩].filter isRelevantFile),
          ([⟨"a.jpg", some "2023-01-01"⟩].filter isRelevantFile).length + 1) :=
  C2_missing_date_dropped true ⟨"b.jpg", none⟩ [⟨"a.jpg", some "2023-01-01"⟩]
    (by decide) rfl

/-- C3: the claim describes a four-choice interactive prompt for files with no
embedded metadata date, but `collect_dates_recursive` never reads its
`non_interactive` argument and contains no prompting code at all: interactive
mode behaves exactly like non-interactive mode, and a date-less media file is
silently dropped (here: interactive mode, one `.jpg` with no date, result is
the empty tally with file count 1 and no interaction). -/
theorem C3_interactive_flag_ignored :
    (∀ files : List MediaFile,
        collect_dates_recursive false files = collect_dates_recursive true files)
      ∧ collect_dates_recursive false [⟨"a.jpg", none⟩] = some ([], 1) :=
  ⟨fun _ => rfl, rfl⟩

/-- C4, counterexample: the claim says a top-level subfolder with a
`YYYY-MM-DD`-shaped name prefix is excluded from the scan upstream and never
reaches the Evidence Collector or Decision Engine.  In the code the only
upstream exclusion is exact membership in `IGNORED_DIRS`; the folder
`"2023-01-01 Trip"` is fully processed — here its evidence yields a different
date and the pipeline even renames it. -/
theorem C4_counterexample :
    processFolders ⟨true, 0, true, "title", false⟩ id
        [⟨"2023-01-01 Trip", [⟨"a.jpg", some "2023-01-05"⟩], none⟩]
      = [("2023-01-01 Trip", Outcome.renamed "2023-01-05 Trip")] := by
  have h1 : processOneFolder ⟨true, 0, true, "title", false⟩ id
      ⟨"2023-01-01 Trip", [⟨"a.jpg", some "2023-01-05"⟩], none⟩
        = Outcome.renamed "2023-01-05 Trip" := by
    rw [processOneFolder_eq ⟨true, 0, true, "title", false⟩ id
      ⟨"2023-01-01 Trip", [⟨"a.jpg", some "2023-01-05"⟩], none⟩
      [("2023-01-05", 1)] 1 rfl (by decide)]
    rw [decideFromTally_pass _ _ _ _ _ (not_lt.mpr (codeConfidence_nonneg _ _))]
    decide
  simp only [processFolders]
  rw [if_neg (by decide), h1]

/-- C4 (amended): top-level subfolders are excluded from processing only when
their exact name is in `IGNORED_DIRS`; a folder whose name starts with a
`YYYY-MM-DD`-shaped prefix is not recognized as already dated and is handed to
the Evidence Collector and Decision Engine like any other folder (an
already-correctly-named folder instead produces no action downstream, via the
Decision Engine's proposed-name equality check). -/
theorem C4_dated_folder_processed (cfg : Config) (ai : String → String)
    (fi : FolderInput) (rest : List FolderInput)
    (hp : hasDatePrefixShape fi.name = true) :
    processFolders cfg ai (fi :: rest)
      = (fi.name, processOneFolder cfg ai fi) :: processFolders cfg ai rest := by
  have hnot : ¬ (IGNORED_DIRS.contains fi.name = true) := by
    intro hc
    have hmem : fi.name ∈ IGNORED_DIRS := by
      simpa using hc
    simp only [IGNORED_DIRS, List.mem_cons, List.not_mem_nil, or_false] at hmem
    rcases hmem with h | h | h | h | h <;> rw [h] at hp <;> exact absurd hp (by decide)
  simp only [processFolders]
  rw [if_neg hnot]

/-- C4, witness: the amended statement at the concrete date-prefixed folder of
the counterexample. -/
theorem C4_witness :
    processFolders ⟨true, 0, true, "title", false⟩ id
        [⟨"2023-01-01 Trip", [⟨"a.jpg", some "2023-01-05"⟩], none⟩]
      = ("2023-01-01 Trip",
          processOneFolder ⟨true, 0, true, "title", false⟩ id
            ⟨"2023-01-01 Trip", [⟨"a.jpg", some "2023-01-05"⟩], none⟩)
          :: processFolders ⟨true, 0, true, "title", false⟩ id [] :=
  C4_dated_folder_processed ⟨true, 0, true, "title", false⟩ id
    ⟨"2023-01-01 Trip", [⟨"a.jpg", some "2023-01-05"⟩], none⟩ [] (by decide)

/-- C5: for every folder whose evidence collection yields no data — Python's
`None` (no media file matched) or an empty counter (files matched but no
dates obtained) — the outcome is `skipNoData` (CASE 1, before any division);
moreover whenever the code does reach the confidence division, the
denominator `total_files` is positive, so no division by zero occurs. -/
theorem C5_empty_tally_skip_no_data (cfg : Config) (ai : String → String)
    (fi : FolderInput)
    (h : collect_dates_recursive cfg.non_interactive fi.files = none
        ∨ ∃ total, collect_dates_recursive cfg.non_interactive fi.files = some ([], total)) :
    processOneFolder cfg ai fi = Outcome.skipNoData
      ∧ ∀ tally total,
          collect_dates_recursive cfg.non_interactive fi.files = some (tally, total) →
          0 < total := by
  constructor
  · rcases h with h | ⟨total, h⟩
    · simp [processOneFolder, h]
    · simp [processOneFolder, h]
  · intro tally total hc
    exact collect_some_total_pos cfg.non_interactive fi.files tally total hc

/-- C5, witness: a folder containing only a non-media file (`b.txt`): the
collector returns `None` and the outcome is `skipNoData`. -/
theorem C5_witness :
    processOneFolder ⟨true, 0, true, "title", false⟩ id ⟨"Docs", [⟨"b.txt", none⟩], none⟩
        = Outcome.skipNoData
      ∧ ∀ tally total,
          collect_dates_recursive true [⟨"b.txt", none⟩] = some (tally, total) →
          0 < total :=
  C5_empty_tally_skip_no_data ⟨true, 0, true, "title", false⟩ id
    ⟨"Docs", [⟨"b.txt", none⟩], none⟩ (Or.inl rfl)

/-- C6: for every folder with a non-empty tally whose confidence is exactly
the configured threshold, the folder is not skipped for low confidence — the
skip test is `confidence < threshold`, so equality proceeds to the naming
stage (outcome `noAction`, `renamed` or `error`, never
`skipLowConfidence`). -/
theorem C6_threshold_boundary_eligible (cfg : Config) (ai : String → String)
    (fi : FolderInput) (tally : List (String × Nat)) (total : Nat)
    (hc : collect_dates_recursive cfg.non_interactive fi.files = some (tally, total))
    (ht : tally ≠ [])
    (heq : codeConfidence (mostCommon1 tally).2 total = cfg.confidence) :
    processOneFolder cfg ai fi = Outcome.noAction
      ∨ (∃ s, processOneFolder cfg ai fi = Outcome.renamed s)
      ∨ (∃ m, processOneFolder cfg ai fi = Outcome.error m) := by
  have hconf : ¬ codeConfidence (mostCommon1 tally).2 total < cfg.confidence := by
    rw [heq]
    exact lt_irrefl cfg.confidence
  rw [processOneFolder_eq cfg ai fi tally total hc ht]
  rw [decideFromTally_pass cfg ai fi tally total hconf]
  by_cases hname : (mostCommon1 tally).1 ++ " " ++
      (if cfg.use_ai then ai (clean_folder_name_regex fi.name cfg.case_type)
       else clean_folder_name_regex fi.name cfg.case_type) = fi.name
  · rw [if_pos hname]
    exact Or.inl rfl
  · rw [if_neg hname]
    by_cases hlive : cfg.live = true
    · rw [if_pos hlive]
      cases hrn : fi.renameResult with
      | none => exact Or.inr (Or.inl ⟨_, rfl⟩)
      | some m => exact Or.inr (Or.inr ⟨m, rfl⟩)
    · rw [if_neg hlive]
      exact Or.inr (Or.inl ⟨_, rfl⟩)

/-- C6, witness: Scenario A's folder (three files dated `2023-01-01`, one
dated `2023-01-02`) with the threshold set to exactly `3/4 = confidence`: the
folder passes the threshold gate and is renamed. -/
theorem C6_witness :
    processOneFolder ⟨false, 3/4, true, "title", false⟩ id
        ⟨"Trip", [⟨"a.jpg", some "2023-01-01"⟩, ⟨"b.jpg", some "2023-01-01"⟩,
          ⟨"c.jpg", some "2023-01-01"⟩, ⟨"d.jpg", some "2023-01-02"⟩], none⟩
        = Outcome.noAction
      ∨ (∃ s, processOneFolder ⟨false, 3/4, true, "title", false⟩ id
          ⟨"Trip", [⟨"a.jpg", some "2023-01-01"⟩, ⟨"b.jpg", some "2023-01-01"⟩,
            ⟨"c.jpg", some "2023-01-01"⟩, ⟨"d.jpg", some "2023-01-02"⟩], none⟩
          = Outcome.renamed s)
      ∨ (∃ m, processOneFolder ⟨false, 3/4, true, "title", false⟩ id
          ⟨"Trip", [⟨"a.jpg", some "2023-01-01"⟩, ⟨"b.jpg", some "2023-01-01"⟩,
            ⟨"c.jpg", some "2023-01-01"⟩, ⟨"d.jpg", some "2023-01-02"⟩], none⟩
          = Outcome.error m) :=
  C6_threshold_boundary_eligible ⟨false, 3/4, true, "title", false⟩ id
    ⟨"Trip", [⟨"a.jpg", some "2023-01-01"⟩, ⟨"b.jpg", some "2023-01-01"⟩,
      ⟨"c.jpg", some "2023-01-01"⟩, ⟨"d.jpg", some "2023-01-02"⟩], none⟩
    [("2023-01-01", 3), ("2023-01-02", 1)] 4 rfl (by decide)
    (by show codeConfidence 3 4 = 3/4
        norm_num [codeConfidence])

/-- C7: for every folder already named `"<ISO-date> <cleanedName>"` whose
evidence yields that same date (with the AI rewrite off, so the final name is
the cleaned base name) and whose cleaned base name matches, the decision is
`noAction` — nothing recorded, no rename attempted — and a second run of the
same decision on the same folder again gives `noAction`: the decision is a
pure function of its inputs, so it is idempotent. -/
theorem C7_no_action_idempotent (cfg : Config) (ai : String → String)
    (fi : FolderInput) (tally : List (String × Nat)) (total : Nat)
    (hai : cfg.use_ai = false)
    (hc : collect_dates_recursive cfg.non_interactive fi.files = some (tally, total))
    (ht : tally ≠ [])
    (hconf : ¬ codeConfidence (mostCommon1 tally).2 total < cfg.confidence)
    (hname : (mostCommon1 tally).1 ++ " " ++
        clean_folder_name_regex fi.name cfg.case_type = fi.name) :
    processOneFolder cfg ai fi = Outcome.noAction
      ∧ processOneFolder cfg ai fi = Outcome.noAction := by
  have hone : processOneFolder cfg ai fi = Outcome.noAction := by
    rw [processOneFolder_eq cfg ai fi tally total hc ht]
    rw [decideFromTally_pass cfg ai fi tally total hconf]
    rw [if_pos (by rw [hai]; simpa using hname)]
  exact ⟨hone, hone⟩

/-- C7, witness: Scenario D — the folder `"2023-01-01 Trip"` whose single
file is dated `2023-01-01` and whose cleaned base name is `"Trip"`: both runs
yield `noAction`. -/
theorem C7_witness :
    processOneFolder ⟨true, 3/5, true, "title", false⟩ id
        ⟨"2023-01-01 Trip", [⟨"a.jpg", some "2023-01-01"⟩], none⟩ = Outcome.noAction
      ∧ processOneFolder ⟨true, 3/5, true, "title", false⟩ id
        ⟨"2023-01-01 Trip", [⟨"a.jpg", some "2023-01-01"⟩], none⟩ = Outcome.noAction :=
  C7_no_action_idempotent ⟨true, 3/5, true, "title", false⟩ id
    ⟨"2023-01-01 Trip", [⟨"a.jpg", some "2023-01-01"⟩], none⟩
    [("2023-01-01", 1)] 1 rfl rfl (by decide)
    (by show ¬ codeConfidence 1 1 < 3/5
        norm_num [codeConfidence])
    (by decide)

/-- C8: `get_unique_path` on an `os.path.exists` oracle `E` (the hypothesis
`h` is the loop's termination condition, always true on a finite filesystem):
a non-existing path is returned unchanged; an existing path `P` yields
`"P (n)"` for the smallest positive `n` whose candidate does not exist; and in
all cases the returned path does not exist. -/
theorem C8_unique_path_spec (E : String → Bool) (base : String)
    (h : ∃ n, E (numberedPath base (n + 1)) = false) :
    (E base = false → get_unique_path E base h = base)
      ∧ (E base = true →
          ∃ n, 1 ≤ n ∧ get_unique_path E base h = numberedPath base n
            ∧ E (numberedPath base n) = false
            ∧ ∀ m, 1 ≤ m → m < n → E (numberedPath base m) = true)
      ∧ E (get_unique_path E base h) = false := by
  refine ⟨?_, ?_, ?_⟩
  · intro hE
    unfold get_unique_path
    rw [if_pos hE]
  · intro hE
    unfold get_unique_path
    rw [if_neg (by simp [hE])]
    refine ⟨Nat.find h + 1, by omega, rfl, Nat.find_spec h, ?_⟩
    intro m h1 h2
    have hm : m - 1 < Nat.find h := by omega
    have hmin := Nat.find_min h hm
    have hmm : m - 1 + 1 = m := by omega
    rw [hmm] at hmin
    cases hEm : E (numberedPath base m) with
    | false => exact absurd hEm hmin
    | true => rfl
  · cases hE : E base with
    | false =>
        unfold get_unique_path
        rw [if_pos hE]
        exact hE
    | true =>
        unfold get_unique_path
        rw [if_neg (by simp [hE])]
        exact Nat.find_spec h

/-- C8, witness: in the concrete filesystem `demoFS` (where `"P"` and
`"P (1)"` exist), the specification instantiates: the collision branch yields
the least free candidate and the result does not exist (it is `"P (2)"`). -/
theorem C8_witness :
    (demoFS "P" = false → get_unique_path demoFS "P" ⟨1, by decide⟩ = "P")
      ∧ (demoFS "P" = true →
          ∃ n, 1 ≤ n ∧ get_unique_path demoFS "P" ⟨1, by decide⟩ = numberedPath "P" n
            ∧ demoFS (numberedPath "P" n) = false
            ∧ ∀ m, 1 ≤ m → m < n → demoFS (numberedPath "P" m) = true)
      ∧ demoFS (get_unique_path demoFS "P" ⟨1, by decide⟩) = false :=
  C8_unique_path_spec demoFS "P" ⟨1, by decide⟩

/-- C9: when a folder's rename raises `OSError`, the error is caught and
recorded as that folder's error outcome and the loop continues with the rest
of the batch unchanged; conversely an error outcome can only arise from a
live-mode rename failure (`renameResult = some e`), the caught exception. -/
theorem C9_rename_error_recorded_continue (cfg : Config) (ai : String → String)
    (fi : FolderInput) (rest : List FolderInput) (e : String)
    (hig : IGNORED_DIRS.contains fi.name = false)
    (he : processOneFolder cfg ai fi = Outcome.error e) :
    processFolders cfg ai (fi :: rest)
        = (fi.name, Outcome.error e) :: processFolders cfg ai rest
      ∧ cfg.live = true ∧ fi.renameResult = some e := by
  refine ⟨?_, processOneFolder_error_inv cfg ai fi e he⟩
  simp only [processFolders]
  rw [if_neg (fun hcontra => Bool.false_ne_true (hig ▸ hcontra)), he]

/-- C9, witness: a live run where renaming `"Trip"` fails with
`"Permission denied"`: the batch records the error for `"Trip"` and continues
to process the remaining folder `"Beach"`. -/
theorem C9_witness :
    processFolders ⟨true, 0, true, "title", false⟩ id
        [⟨"Trip", [⟨"a.jpg", some "2023-01-05"⟩], some "Permission denied"⟩,
          ⟨"Beach", [⟨"b.jpg", some "2024-02-02"⟩], none⟩]
        = ("Trip", Outcome.error "Permission denied")
            :: processFolders ⟨true, 0, true, "title", false⟩ id
              [⟨"Beach", [⟨"b.jpg", some "2024-02-02"⟩], none⟩]
      ∧ (⟨true, 0, true, "title", false⟩ : Config).live = true
      ∧ (⟨"Trip", [⟨"a.jpg", some "2023-01-05"⟩], some "Permission denied"⟩ :
          FolderInput).renameResult = some "Permission denied" :=
  C9_rename_error_recorded_continue ⟨true, 0, true, "title", false⟩ id
    ⟨"Trip", [⟨"a.jpg", some "2023-01-05"⟩], some "Permission denied"⟩
    [⟨"Beach", [⟨"b.jpg", some "2024-02-02"⟩], none⟩] "Permission denied"
    (by decide)
    (by rw [processOneFolder_eq ⟨true, 0, true, "title", false⟩ id
          ⟨"Trip", [⟨"a.jpg", some "2023-01-05"⟩], some "Permission denied"⟩
          [("2023-01-05", 1)] 1 rfl (by decide)]
        rw [decideFromTally_pass _ _ _ _ _ (not_lt.mpr (codeConfidence_nonneg _ _))]
        decide)

/-- C10: a file whose name contains one of the `IGNORED_FILES` tokens as a
substring anywhere (the filter is Python's `j in f` containment, not an
exact-name match) is dropped before the extension check: it contributes
nothing at all to the collection result — neither to the tally nor to the
file count — even when its extension is a recognized media extension. -/
theorem C10_ignored_substring_skipped (ni : Bool) (f : MediaFile)
    (rest : List MediaFile)
    (hig : IGNORED_FILES.any (fun j => strContains f.name j) = true) :
    collect_dates_recursive ni (f :: rest) = collect_dates_recursive ni rest := by
  have hrel : isRelevantFile f = false := by
    unfold isRelevantFile
    rw [hig]
    rfl
  unfold collect_dates_recursive
  simp [List.filter_cons, hrel]

/-- C10, witness: `"xSYNOFILE_THUMB.jpg"` has a media extension and a date,
contains `SYNOFILE_THUMB` strictly inside its name, and is skipped: the
collection over it and `"a.jpg"` equals the collection over `"a.jpg"`
alone. -/
theorem C10_witness :
    collect_dates_recursive true
        (⟨"xSYNOFILE_THUMB.jpg", some "2020-01-01"⟩ :: [⟨"a.jpg", some "2020-01-02"⟩])
      = collect_dates_recursive true [⟨"a.jpg", some "2020-01-02"⟩] :=
  C10_ignored_substring_skipped true ⟨"xSYNOFILE_THUMB.jpg", some "2020-01-01"⟩
    [⟨"a.jpg", some "2020-01-02"⟩] (by decide)

end ExifOrganizer
